import Mathlib

/-!
Verification development for the Gradio front-end
`src/f5_tts/infer/infer_gradio.py` of the F5-TTS-Arabic repository.

The pure text-processing functions of the source are embedded directly;
every external call (pretrained models, file IO, the `num2words` library,
the Whisper transcription inside `preprocess_ref_audio_text`) is taken as
a function parameter, so the theorems hold for every behaviour of those
external components.

Strings are modelled through their character lists.  `[A-Za-z]` is the
ASCII letter class of the regex itself.  The Unicode tables behind `\d`
(category Nd), `\w` (alphanumerics plus underscore) and the per-character
digit values used by `int()` live in the Python runtime, outside this
repository, so the digit class, the word-character class and the numeral
reader are parameters of the embedding; the theorems quantify over them,
constrained only by facts of the real tables (no decimal digit is an ASCII
letter; a space is not a decimal digit), and executable fragments of the
real tables covering this app's scripts (ASCII and Arabic) instantiate them
in the witnesses.  `str.strip()` and `str.lower()` are modelled on the ASCII
range (Arabic script is caseless and not whitespace).
-/

namespace F5TTS

/-- Whitespace characters stripped by Python `str.strip()` (ASCII range). -/
def isPySpace (c : Char) : Bool :=
  c = ' ' || c = '\t' || c = '\n' || c = '\r' || c = '\x0b' || c = '\x0c'

/-- `str.strip()` on character lists: drop whitespace from both ends. -/
def pyStripL (l : List Char) : List Char :=
  ((l.dropWhile isPySpace).reverse.dropWhile isPySpace).reverse

/-- `str.strip()` on strings. -/
def pyStrip (s : String) : String :=
  String.mk (pyStripL s.data)

/-- `str.lower()` (ASCII range; Arabic letters are caseless). -/
def pyLower (s : String) : String :=
  String.mk (s.data.map Char.toLower)

/-!
## `parse_speechtypes_text` (source lines 194–216)

The source splits on the regex `\{(.*?)\}` with `re.split`, which returns the
parts between matches interleaved with the captured groups.  A match of
`\{(.*?)\}` starts at a `{` and captures the (lazy, hence shortest) run of
characters up to the first following `}`; `.` does not match a newline, so a
`{` that is not followed by a `}` before the next newline starts no match.
-/

/-- Scan the characters following a `{`: return the captured group and the
remainder after the closing `}`, or `none` when the regex match fails
(no `}` before a newline or the end of the string). -/
def scanContent : List Char → Option (List Char × List Char)
  | [] => none
  | c :: rest =>
    if c = '\x7d' then some ([], rest)
    else if c = '\n' then none
    else
      match scanContent rest with
      | some (g, r) => some (c :: g, r)
      | none => none

/-- `re.split(r"\{(.*?)\}", ·)`: the accumulator holds the (reversed)
characters of the current plain-text piece; each regex match emits the piece
before it and the captured group.  Every recursive call strictly shortens the
remaining input (a match consumes at least the two braces), so with
`fuel = l.length` initially the fuel never runs out and the `fuel = 0` case
is unreachable. -/
def reSplitGo (fuel : Nat) (acc l : List Char) : List (List Char) :=
  match fuel with
  | 0 => [acc.reverse]
  | fuel + 1 =>
    match l with
    | [] => [acc.reverse]
    | c :: rest =>
      if c = '\x7b' then
        match scanContent rest with
        | some (g, r) => acc.reverse :: g :: reSplitGo fuel [] r
        | none => reSplitGo fuel (c :: acc) rest
      else reSplitGo fuel (c :: acc) rest

/-- The token list produced by `re.split(r"\{(.*?)\}", gen_text)`:
plain-text pieces at even indices, captured style names at odd indices. -/
def reSplitMarkers (l : List Char) : List (List Char) :=
  reSplitGo l.length [] l

/-- One parsed segment: a style label and the text to synthesize in it. -/
structure Segment where
  style : String
  text : String
  deriving DecidableEq, Repr

/-- The loop of `parse_speechtypes_text`: even-index tokens are text (kept,
stripped, when non-empty, labelled with the current style), odd-index tokens
set the current style (stripped). -/
def segLoop : List Char → List (List Char) → List Segment
  | _, [] => []
  | cur, [t] =>
    if pyStripL t = [] then [] else [⟨String.mk cur, String.mk (pyStripL t)⟩]
  | cur, t :: sty :: rest =>
    (if pyStripL t = [] then [] else [⟨String.mk cur, String.mk (pyStripL t)⟩])
      ++ segLoop (pyStripL sty) rest

/-- `parse_speechtypes_text` (source lines 194–216). -/
def parse_speechtypes_text (gen_text : String) : List Segment :=
  segLoop "Regular".data (reSplitMarkers gen_text.data)

/-- Elements at even indices of a list. -/
def evenIdx {α : Type} : List α → List α
  | [] => []
  | [a] => [a]
  | a :: _ :: rest => a :: evenIdx rest

/-- Elements at odd indices of a list. -/
def oddIdx {α : Type} : List α → List α
  | [] => []
  | [_] => []
  | _ :: b :: rest => b :: oddIdx rest

/-- Modelled from the claim's words: the chunks between markers are the
even-index tokens, the marker styles the odd-index tokens; chunk number `i`
is labelled with the (stripped) style of marker number `i - 1`, the chunk
before the first marker with `"Regular"`; stripped chunks that are empty
yield no segment. -/
def spec_parse_speechtypes (gen_text : String) : List Segment :=
  let toks := reSplitMarkers gen_text.data
  let labels := "Regular".data :: (oddIdx toks).map pyStripL
  (labels.zip (evenIdx toks)).filterMap (fun p =>
    if pyStripL p.2 = [] then none
    else some ⟨String.mk p.1, String.mk (pyStripL p.2)⟩)

theorem segLoop_zip :
    ∀ (n : Nat) (toks : List (List Char)) (cur : List Char), toks.length ≤ n →
      segLoop cur toks =
        ((cur :: (oddIdx toks).map pyStripL).zip (evenIdx toks)).filterMap (fun p =>
          if pyStripL p.2 = [] then none
          else some ⟨String.mk p.1, String.mk (pyStripL p.2)⟩) := by
  intro n
  induction n with
  | zero =>
    intro toks cur h
    have : toks = [] := List.length_eq_zero.mp (Nat.le_zero.mp h)
    subst this
    simp [segLoop, oddIdx, evenIdx]
  | succ n ih =>
    intro toks cur h
    match toks with
    | [] => simp [segLoop, oddIdx, evenIdx]
    | [t] =>
      simp only [segLoop, oddIdx, evenIdx, List.map_nil, List.zip_cons_cons,
        List.zip_nil_right, List.filterMap_cons, List.filterMap_nil]
      split
      · simp_all
      · simp_all
    | t :: sty :: rest =>
      have hlen : rest.length ≤ n := by
        simp only [List.length_cons] at h
        omega
      simp only [segLoop, oddIdx, evenIdx, List.map_cons, List.zip_cons_cons,
        List.filterMap_cons]
      rw [ih rest (pyStripL sty) hlen]
      split
      · simp
      · simp

/-- C1: `parse_speechtypes_text` splits its input on `{style}` markers in one
left-to-right pass; each maximal chunk between markers is stripped, dropped
when empty, and otherwise labelled with the stripped style of the nearest
preceding marker, text before the first marker being labelled `"Regular"`. -/
theorem parse_speechtypes_text_eq_spec :
    ∀ s : String, parse_speechtypes_text s = spec_parse_speechtypes s := by
  intro s
  exact segLoop_zip (reSplitMarkers s.data).length (reSplitMarkers s.data)
    "Regular".data (Nat.le_refl _)

/-!
## `convert_numbers_to_arabic_text` (source lines 76–86)

Three `re.sub` passes: `([A-Za-z])(\d)` ↦ `\1 \2`, then `(\d)([A-Za-z])` ↦
`\1 \2`, then `\b\d+\b` ↦ `num2words(int(number), lang='ar')`.

`[A-Za-z]` is the ASCII letter class of the regex itself.  The tables behind
`\d` (the Unicode decimal digits, category Nd), `\w` (Unicode alphanumerics
plus underscore) and the per-character digit values used by `int()` live in
the Python runtime, outside this repository, so the digit class `deci`, the
word-character class `word` and the numeral reader `intFn` are parameters of
the embedding, alongside the external `num2words(·, lang='ar')` as
`numToWords`.  The theorems quantify over them, constrained only by facts of
the real tables (no decimal digit is an ASCII letter; a space is not a
decimal digit), so they hold in particular for the full Unicode classes —
Arabic-Indic digit runs are replaced, and a digit run touching an Arabic
letter (a word character) is not.  `isDeciUni`, `isWordUni` and `intUni`
below are executable fragments of the real tables covering the scripts this
app processes (ASCII and Arabic) and instantiate the parameters in the
witnesses.
-/

/-- `[A-Za-z]`. -/
def isLatinLetter (c : Char) : Bool :=
  (65 ≤ c.toNat && c.toNat ≤ 90) || (97 ≤ c.toNat && c.toNat ≤ 122)

/-- Fragment of `\d` (Unicode category Nd) for this app's scripts: ASCII
digits, Arabic-Indic digits and Extended Arabic-Indic digits. -/
def isDeciUni (c : Char) : Bool :=
  (48 ≤ c.toNat && c.toNat ≤ 57)
    || (0x660 ≤ c.toNat && c.toNat ≤ 0x669)
    || (0x6F0 ≤ c.toNat && c.toNat ≤ 0x6F9)

/-- Fragment of `\w` (Unicode alphanumerics plus underscore) for this app's
scripts: ASCII letters, the digit fragment, underscore, and the Arabic
letters U+0621–U+064A (including tatweel U+0640). -/
def isWordUni (c : Char) : Bool :=
  isLatinLetter c || isDeciUni c || c = '_'
    || (0x621 ≤ c.toNat && c.toNat ≤ 0x64A)

/-- The decimal value `int()` assigns to a digit of the fragment. -/
def digitValUni (c : Char) : Nat :=
  if 48 ≤ c.toNat && c.toNat ≤ 57 then c.toNat - 48
  else if 0x660 ≤ c.toNat && c.toNat ≤ 0x669 then c.toNat - 0x660
  else if 0x6F0 ≤ c.toNat && c.toNat ≤ 0x6F9 then c.toNat - 0x6F0
  else 0

/-- `int(·)` on a run of digits of the fragment. -/
def intUni (l : List Char) : Nat :=
  l.foldl (fun n c => n * 10 + digitValUni c) 0

theorem isDeciUni_not_latin :
    ∀ c : Char, isDeciUni c = true → isLatinLetter c = false := by
  intro c h
  simp only [isDeciUni, Bool.or_eq_true, Bool.and_eq_true,
    decide_eq_true_eq] at h
  simp only [isLatinLetter, Bool.or_eq_false_iff, Bool.and_eq_false_iff,
    decide_eq_false_iff_not, Nat.not_le]
  omega

/-- `re.sub(r'([A-Za-z])(\d)', r'\1 \2', ·)`: a match consumes both
characters, so scanning resumes after the digit. -/
def insertSpaceLetterDigit (deci : Char → Bool) : List Char → List Char
  | [] => []
  | [c] => [c]
  | c1 :: c2 :: rest =>
    if isLatinLetter c1 && deci c2 then
      c1 :: ' ' :: c2 :: insertSpaceLetterDigit deci rest
    else
      c1 :: insertSpaceLetterDigit deci (c2 :: rest)

/-- `re.sub(r'(\d)([A-Za-z])', r'\1 \2', ·)`. -/
def insertSpaceDigitLetter (deci : Char → Bool) : List Char → List Char
  | [] => []
  | [c] => [c]
  | c1 :: c2 :: rest =>
    if deci c1 && isLatinLetter c2 then
      c1 :: ' ' :: c2 :: insertSpaceDigitLetter deci rest
    else
      c1 :: insertSpaceDigitLetter deci (c2 :: rest)

theorem dropWhile_length_le (p : Char → Bool) :
    ∀ l : List Char, (l.dropWhile p).length ≤ l.length := by
  intro l
  induction l with
  | nil => simp
  | cons c rest ih =>
    simp only [List.dropWhile_cons]
    split
    · exact Nat.le_succ_of_le ih
    · simp

/-- `re.sub(r'\b\d+\b', replace_number, ·)`, with `replace_number` returning
`num2words(int(number), lang='ar')` for the matched run `number`.  A match
is a maximal run of digits whose neighbour on the left (tracked by `prevW`,
the word-character status of the previously scanned character, `false` at
the start of the string) and on the right are not word characters; scanning
resumes after the match in the original string, whose last consumed
character is a digit, hence a word character. -/
def subNumRuns (deci word : Char → Bool) (intFn : List Char → Nat)
    (numToWords : Nat → String) (prevW : Bool) (l : List Char) : List Char :=
  match l with
  | [] => []
  | c :: rest =>
    if deci c && !prevW then
      match hr : rest.dropWhile deci with
      | [] => (numToWords (intFn (c :: rest.takeWhile deci))).data
      | d :: tl =>
        if word d then
          (c :: rest.takeWhile deci)
            ++ subNumRuns deci word intFn numToWords true (d :: tl)
        else
          (numToWords (intFn (c :: rest.takeWhile deci))).data
            ++ subNumRuns deci word intFn numToWords true (d :: tl)
    else
      c :: subNumRuns deci word intFn numToWords (word c) rest
termination_by l.length
decreasing_by
  all_goals simp only [List.length_cons]
  · have := dropWhile_length_le deci rest
    rw [hr] at this
    simp only [List.length_cons] at this ⊢
    omega
  · have := dropWhile_length_le deci rest
    rw [hr] at this
    simp only [List.length_cons] at this ⊢
    omega
  · omega

/-- `convert_numbers_to_arabic_text` (source lines 76–86). -/
def convert_numbers_to_arabic_text (deci word : Char → Bool)
    (intFn : List Char → Nat) (numToWords : Nat → String)
    (text : String) : String :=
  let text_separated := insertSpaceLetterDigit deci text.data
  let text_separated2 := insertSpaceDigitLetter deci text_separated
  String.mk (subNumRuns deci word intFn numToWords false text_separated2)

/-- One simultaneous pass that inserts a space between every two adjacent
characters satisfying `p`. -/
def insSpace (p : Char → Char → Bool) : List Char → List Char
  | [] => []
  | [c] => [c]
  | c1 :: c2 :: rest =>
    if p c1 c2 then c1 :: ' ' :: insSpace p (c2 :: rest)
    else c1 :: insSpace p (c2 :: rest)

/-- A Latin-letter/digit pair, in either order. -/
def mixedPair (deci : Char → Bool) (c1 c2 : Char) : Bool :=
  (isLatinLetter c1 && deci c2) || (deci c1 && isLatinLetter c2)

/-- Modelled from the claim's words: first insert a space between every
adjacent Latin-letter/digit pair in both orders (one simultaneous pass),
then replace every maximal digit run delimited by word boundaries with the
words for its value, leaving every other character unchanged. -/
def spec_convert_numbers (deci word : Char → Bool)
    (intFn : List Char → Nat) (numToWords : Nat → String)
    (text : String) : String :=
  String.mk (subNumRuns deci word intFn numToWords false
    (insSpace (mixedPair deci) text.data))

theorem insSpace_cons (p : Char → Char → Bool) (c : Char) (t : List Char) :
    ∃ t', insSpace p (c :: t) = c :: t' := by
  match t with
  | [] => exact ⟨[], rfl⟩
  | d :: r =>
    by_cases hp : p c d = true
    · exact ⟨' ' :: insSpace p (d :: r), by simp [insSpace, hp]⟩
    · refine ⟨insSpace p (d :: r), ?_⟩
      rw [Bool.not_eq_true] at hp
      simp [insSpace, hp]

theorem insertSpaceLetterDigit_eq_insSpace :
    ∀ (deci : Char → Bool),
      (∀ c, deci c = true → isLatinLetter c = false) →
      ∀ (n : Nat) (l : List Char), l.length ≤ n →
        insertSpaceLetterDigit deci l =
          insSpace (fun a b => isLatinLetter a && deci b) l := by
  intro deci hdisj n
  induction n with
  | zero =>
    intro l h
    have : l = [] := List.length_eq_zero.mp (Nat.le_zero.mp h)
    subst this
    rfl
  | succ n ih =>
    intro l h
    match l with
    | [] => rfl
    | [c] => rfl
    | c1 :: c2 :: rest =>
      simp only [List.length_cons] at h
      by_cases hp : (isLatinLetter c1 && deci c2) = true
      · simp only [insertSpaceLetterDigit, insSpace, hp, if_true]
        have hsplit : isLatinLetter c1 = true ∧ deci c2 = true := by
          simpa using hp
        have hnl : isLatinLetter c2 = false := hdisj c2 hsplit.2
        match rest with
        | [] => rfl
        | c3 :: r =>
          have hp2 : (isLatinLetter c2 && deci c3) = false := by simp [hnl]
          simp only [List.length_cons] at h
          simp only [insSpace, hp2, Bool.false_eq_true, if_false]
          rw [ih (c3 :: r) (by simp only [List.length_cons]; omega)]
      · rw [Bool.not_eq_true] at hp
        simp only [insertSpaceLetterDigit, insSpace, hp, Bool.false_eq_true,
          if_false]
        rw [ih (c2 :: rest) (by simp only [List.length_cons]; omega)]

theorem insertSpaceDigitLetter_eq_insSpace :
    ∀ (deci : Char → Bool),
      (∀ c, deci c = true → isLatinLetter c = false) →
      ∀ (n : Nat) (l : List Char), l.length ≤ n →
        insertSpaceDigitLetter deci l =
          insSpace (fun a b => deci a && isLatinLetter b) l := by
  intro deci hdisj n
  induction n with
  | zero =>
    intro l h
    have : l = [] := List.length_eq_zero.mp (Nat.le_zero.mp h)
    subst this
    rfl
  | succ n ih =>
    intro l h
    match l with
    | [] => rfl
    | [c] => rfl
    | c1 :: c2 :: rest =>
      simp only [List.length_cons] at h
      by_cases hp : (deci c1 && isLatinLetter c2) = true
      · simp only [insertSpaceDigitLetter, insSpace, hp, if_true]
        have hsplit : deci c1 = true ∧ isLatinLetter c2 = true := by
          simpa using hp
        have hnl : deci c2 = false := by
          cases hd : deci c2 with
          | false => rfl
          | true =>
            have hlat := hdisj c2 hd
            rw [hsplit.2] at hlat
            exact absurd hlat (by simp)
        match rest with
        | [] => rfl
        | c3 :: r =>
          have hp2 : (deci c2 && isLatinLetter c3) = false := by simp [hnl]
          simp only [List.length_cons] at h
          simp only [insSpace, hp2, Bool.false_eq_true, if_false]
          rw [ih (c3 :: r) (by simp only [List.length_cons]; omega)]
      · rw [Bool.not_eq_true] at hp
        simp only [insertSpaceDigitLetter, insSpace, hp, Bool.false_eq_true,
          if_false]
        rw [ih (c2 :: rest) (by simp only [List.length_cons]; omega)]

theorem insSpace_comp :
    ∀ (deci : Char → Bool), deci ' ' = false →
      ∀ (n : Nat) (l : List Char), l.length ≤ n →
        insSpace (fun a b => deci a && isLatinLetter b)
            (insSpace (fun a b => isLatinLetter a && deci b) l) =
          insSpace (mixedPair deci) l := by
  intro deci hspace n
  induction n with
  | zero =>
    intro l h
    have : l = [] := List.length_eq_zero.mp (Nat.le_zero.mp h)
    subst this
    rfl
  | succ n ih =>
    intro l h
    match l with
    | [] => rfl
    | [c] => rfl
    | c1 :: c2 :: rest =>
      simp only [List.length_cons] at h
      have hlen : (c2 :: rest).length ≤ n := by
        simp only [List.length_cons]; omega
      obtain ⟨tLD, hLD⟩ :=
        insSpace_cons (fun a b => isLatinLetter a && deci b) c2 rest
      by_cases hp : (isLatinLetter c1 && deci c2) = true
      · have hsplit : isLatinLetter c1 = true ∧ deci c2 = true := by
          simpa using hp
        have hmix : mixedPair deci c1 c2 = true := by
          simp [mixedPair, hsplit.1, hsplit.2]
        have hsp1 : (deci c1 && isLatinLetter ' ') = false := by
          simp [isLatinLetter]
        have hsp2 : (deci ' ' && isLatinLetter c2) = false := by
          simp [hspace]
        simp only [insSpace, hp, if_true, hmix]
        rw [hLD]
        simp only [insSpace, hsp1, hsp2, Bool.false_eq_true, if_false]
        rw [← hLD, ih (c2 :: rest) hlen]
      · rw [Bool.not_eq_true] at hp
        by_cases hq : (deci c1 && isLatinLetter c2) = true
        · have hsplit : deci c1 = true ∧ isLatinLetter c2 = true := by
            simpa using hq
          have hmix : mixedPair deci c1 c2 = true := by
            simp [mixedPair, hsplit.1, hsplit.2]
          simp only [insSpace, hp, Bool.false_eq_true, if_false, hmix, if_true]
          rw [hLD]
          simp only [insSpace, hq, if_true]
          rw [← hLD, ih (c2 :: rest) hlen]
        · rw [Bool.not_eq_true] at hq
          have hmix : mixedPair deci c1 c2 = false := by
            simp [mixedPair, hp, hq]
          simp only [insSpace, hp, Bool.false_eq_true, if_false, hmix]
          rw [hLD]
          simp only [insSpace, hq, Bool.false_eq_true, if_false]
          rw [← hLD, ih (c2 :: rest) hlen]

theorem insSpace_mixed_no_digits (deci : Char → Bool) :
    ∀ l : List Char, (∀ c ∈ l, deci c = false) →
      insSpace (mixedPair deci) l = l := by
  intro l
  induction l with
  | nil => intro _; rfl
  | cons c tail ih =>
    intro h
    match tail with
    | [] => rfl
    | c2 :: r =>
      have hc : deci c = false := h c (by simp)
      have hc2 : deci c2 = false := h c2 (by simp)
      have hmix : mixedPair deci c c2 = false := by simp [mixedPair, hc, hc2]
      simp only [insSpace, hmix, Bool.false_eq_true, if_false]
      rw [ih (fun x hx => h x (List.mem_cons_of_mem _ hx))]

theorem subNumRuns_no_digits (deci word : Char → Bool)
    (intFn : List Char → Nat) (numToWords : Nat → String) :
    ∀ (l : List Char) (b : Bool),
      (∀ c ∈ l, deci c = false) →
      subNumRuns deci word intFn numToWords b l = l := by
  intro l
  induction l with
  | nil => intro b _; rw [subNumRuns]
  | cons c rest ih =>
    intro b h
    have hc : deci c = false := h c (by simp)
    rw [subNumRuns]
    simp only [hc, Bool.false_and, Bool.false_eq_true, if_false]
    rw [ih (word c) (fun x hx => h x (List.mem_cons_of_mem _ hx))]

/-- C2: for every digit class that contains no ASCII letter and not the
space character (facts of Unicode Nd, the class of `\d`), every
word-character class, every numeral reader and every `num2words`:
`convert_numbers_to_arabic_text` first inserts a space between every
adjacent Latin-letter/digit pair (both orders, as one simultaneous pass),
then replaces every maximal digit run delimited by word boundaries with the
words `num2words(int(run))`; a text without digits is returned unchanged. -/
theorem convert_numbers_to_arabic_text_eq_spec :
    ∀ (deci word : Char → Bool) (intFn : List Char → Nat)
      (numToWords : Nat → String) (t : String),
      (∀ c, deci c = true → isLatinLetter c = false) →
      deci ' ' = false →
      (convert_numbers_to_arabic_text deci word intFn numToWords t
          = spec_convert_numbers deci word intFn numToWords t
        ∧ ((∀ c ∈ t.data, deci c = false) →
            convert_numbers_to_arabic_text deci word intFn numToWords t
              = t)) := by
  intro deci word intFn numToWords t hdisj hspace
  have hmain : convert_numbers_to_arabic_text deci word intFn numToWords t
      = spec_convert_numbers deci word intFn numToWords t := by
    show String.mk (subNumRuns deci word intFn numToWords false
        (insertSpaceDigitLetter deci (insertSpaceLetterDigit deci t.data)))
      = String.mk (subNumRuns deci word intFn numToWords false
        (insSpace (mixedPair deci) t.data))
    rw [insertSpaceLetterDigit_eq_insSpace deci hdisj t.data.length t.data
      (Nat.le_refl _)]
    rw [insertSpaceDigitLetter_eq_insSpace deci hdisj
      (insSpace (fun a b => isLatinLetter a && deci b) t.data).length _
      (Nat.le_refl _)]
    rw [insSpace_comp deci hspace t.data.length t.data (Nat.le_refl _)]
  refine ⟨hmain, fun h => ?_⟩
  rw [hmain]
  show String.mk (subNumRuns deci word intFn numToWords false
    (insSpace (mixedPair deci) t.data)) = t
  rw [insSpace_mixed_no_digits deci t.data h]
  rw [subNumRuns_no_digits deci word intFn numToWords t.data false h]

/-- Witness for C2 at the Unicode-fragment classes and `t = "abc"`. -/
theorem convert_numbers_to_arabic_text_eq_spec_witness :
    convert_numbers_to_arabic_text isDeciUni isWordUni intUni
        (fun _ => "N") "abc"
      = spec_convert_numbers isDeciUni isWordUni intUni (fun _ => "N") "abc"
      ∧ convert_numbers_to_arabic_text isDeciUni isWordUni intUni
          (fun _ => "N") "abc" = "abc" :=
  ⟨(convert_numbers_to_arabic_text_eq_spec isDeciUni isWordUni intUni
      (fun _ => "N") "abc" isDeciUni_not_latin (by decide)).1,
   (convert_numbers_to_arabic_text_eq_spec isDeciUni isWordUni intUni
      (fun _ => "N") "abc" isDeciUni_not_latin (by decide)).2 (by decide)⟩

/-!
## `infer` (source lines 88–129)

The external calls are parameters: `preprocessFn` models
`preprocess_ref_audio_text` (audio path preprocessing plus optional Whisper
transcription), `inferProcessFn` models `infer_process` (the TTS model and
vocoder, already closed over `cross_fade_duration`, `speed` and the progress
callback), and `removeSilenceFn` models the round trip `sf.write` /
`remove_silence_for_generated_wav` / `torchaudio.load` / `squeeze`.
Waveforms and spectrograms are opaque type parameters; writing the
spectrogram image to a temporary file is abstracted into returning the
spectrogram itself. -/
def infer {Wave Spect : Type}
    (deci word : Char → Bool) (intFn : List Char → Nat)
    (numToWords : Nat → String)
    (preprocessFn : Option String → String → String × String)
    (inferProcessFn : String → String → String → Wave × Nat × Spect)
    (removeSilenceFn : Wave → Wave)
    (ref_audio_orig : Option String) (ref_text gen_text : String)
    (remove_silence : Bool) : (Nat × Wave) × Spect :=
  let pr := preprocessFn ref_audio_orig ref_text
  let g1 := if gen_text.startsWith " " then gen_text else " " ++ gen_text
  let g2 := if g1.endsWith ". " then g1 else g1 ++ ". "
  let g3 := pyLower g2
  let g4 := convert_numbers_to_arabic_text deci word intFn numToWords g3
  let r := inferProcessFn pr.1 pr.2 g4
  let final_wave := if remove_silence then removeSilenceFn r.1 else r.1
  ((r.2.1, final_wave), r.2.2)

/-- C5: silence removal is applied to the generated waveform exactly when the
`remove_silence` flag is set; with the flag unset the waveform produced by
`inferProcessFn` is returned unchanged, and for either flag value the
returned sample rate and the spectrogram are the ones `inferProcessFn`
produced, independent of the flag. -/
theorem infer_remove_silence_effect :
    ∀ {Wave Spect : Type} (deci word : Char → Bool) (intFn : List Char → Nat)
    (numToWords : Nat → String)
      (preprocessFn : Option String → String → String × String)
      (inferProcessFn : String → String → String → Wave × Nat × Spect)
      (removeSilenceFn : Wave → Wave)
      (ref_audio_orig : Option String) (ref_text gen_text : String),
      (infer deci word intFn numToWords preprocessFn inferProcessFn removeSilenceFn
          ref_audio_orig ref_text gen_text false).1.2
        = (inferProcessFn
            (preprocessFn ref_audio_orig ref_text).1
            (preprocessFn ref_audio_orig ref_text).2
            (convert_numbers_to_arabic_text deci word intFn numToWords (pyLower
              ((fun s => if String.endsWith s ". " then s else s ++ ". ")
                (if String.startsWith gen_text " " then gen_text
                 else " " ++ gen_text))))).1
      ∧ (infer deci word intFn numToWords preprocessFn inferProcessFn removeSilenceFn
          ref_audio_orig ref_text gen_text true).1.2
        = removeSilenceFn
            (infer deci word intFn numToWords preprocessFn inferProcessFn removeSilenceFn
              ref_audio_orig ref_text gen_text false).1.2
      ∧ (∀ b : Bool,
          (infer deci word intFn numToWords preprocessFn inferProcessFn removeSilenceFn
            ref_audio_orig ref_text gen_text b).1.1
          = (infer deci word intFn numToWords preprocessFn inferProcessFn removeSilenceFn
            ref_audio_orig ref_text gen_text false).1.1
        ∧ (infer deci word intFn numToWords preprocessFn inferProcessFn removeSilenceFn
            ref_audio_orig ref_text gen_text b).2
          = (infer deci word intFn numToWords preprocessFn inferProcessFn removeSilenceFn
            ref_audio_orig ref_text gen_text false).2) := by
  intro Wave Spect deci word intFn numToWords preprocessFn inferProcessFn removeSilenceFn a rt gt
  refine ⟨rfl, rfl, fun b => ?_⟩
  cases b
  · exact ⟨rfl, rfl⟩
  · exact ⟨rfl, rfl⟩

/-- C7: `infer` hands `inferProcessFn` exactly the normalized generation
text: a space is prepended unless one is already there, `". "` is appended
unless the text already ends in it, the result is lowercased and its
standalone numbers are converted to words; sample rate, waveform and
spectrogram all come from that single call. -/
theorem infer_normalizes_gen_text :
    ∀ {Wave Spect : Type} (deci word : Char → Bool) (intFn : List Char → Nat)
    (numToWords : Nat → String)
      (preprocessFn : Option String → String → String × String)
      (inferProcessFn : String → String → String → Wave × Nat × Spect)
      (removeSilenceFn : Wave → Wave)
      (ref_audio_orig : Option String) (ref_text gen_text : String)
      (remove_silence : Bool),
      infer deci word intFn numToWords preprocessFn inferProcessFn removeSilenceFn
          ref_audio_orig ref_text gen_text remove_silence
        = (((inferProcessFn
              (preprocessFn ref_audio_orig ref_text).1
              (preprocessFn ref_audio_orig ref_text).2
              (convert_numbers_to_arabic_text deci word intFn numToWords (pyLower
                ((fun s => if String.endsWith s ". " then s else s ++ ". ")
                  (if String.startsWith gen_text " " then gen_text
                   else " " ++ gen_text))))).2.1,
            if remove_silence then
              removeSilenceFn (inferProcessFn
                (preprocessFn ref_audio_orig ref_text).1
                (preprocessFn ref_audio_orig ref_text).2
                (convert_numbers_to_arabic_text deci word intFn numToWords (pyLower
                  ((fun s => if String.endsWith s ". " then s else s ++ ". ")
                    (if String.startsWith gen_text " " then gen_text
                     else " " ++ gen_text))))).1
            else (inferProcessFn
                (preprocessFn ref_audio_orig ref_text).1
                (preprocessFn ref_audio_orig ref_text).2
                (convert_numbers_to_arabic_text deci word intFn numToWords (pyLower
                  ((fun s => if String.endsWith s ". " then s else s ++ ". ")
                    (if String.startsWith gen_text " " then gen_text
                     else " " ++ gen_text))))).1),
           (inferProcessFn
              (preprocessFn ref_audio_orig ref_text).1
              (preprocessFn ref_audio_orig ref_text).2
              (convert_numbers_to_arabic_text deci word intFn numToWords (pyLower
                ((fun s => if String.endsWith s ". " then s else s ++ ". ")
                  (if String.startsWith gen_text " " then gen_text
                   else " " ++ gen_text))))).2.2) := by
  intro Wave Spect deci word intFn numToWords preprocessFn inferProcessFn removeSilenceFn
    a rt gt b
  rfl

/-!
## `generate_multistyle_speech` (source lines 378–435)

The UI passes 99 additional speech-type name/audio/reference-text widgets;
the handler slices the first 99 of each from `*args`.  A name maps to an
entry when both its name and its audio are truthy (Gradio gives `None` for a
missing audio upload and `""` for an empty textbox).  The dict is a Python
dict: a later insertion with the same name overwrites an earlier one.
Waveforms are modelled as `List Int` so that `np.concatenate` is `List.join`;
the final sample rate is the one of the last `infer` call.
-/

/-- One value of the `speech_types` dict: reference audio path and text. -/
structure SpeechEntry where
  audio : Option String
  ref_text : String
  deriving DecidableEq, Repr

/-- `max_speech_types` (source line 265). -/
def max_speech_types : Nat := 100

/-- The `speech_types` dict in insertion order: `"Regular"` first, then one
entry per additional row whose name and audio are both truthy. -/
def build_speech_types (regular_audio : Option String) (regular_ref_text : String)
    (names : List String) (audios : List (Option String))
    (ref_texts : List String) : List (String × SpeechEntry) :=
  ("Regular", ⟨regular_audio, regular_ref_text⟩) ::
    ((names.zip (audios.zip ref_texts)).filterMap (fun p =>
      if p.1 ≠ "" ∧ p.2.1.isSome then some (p.1, ⟨p.2.1, p.2.2⟩) else none))

/-- Python dict lookup on the insertion-ordered association list: the last
insertion with the key wins. -/
def dictGet (l : List (String × SpeechEntry)) (k : String) : Option SpeechEntry :=
  match l with
  | [] => none
  | (k', v) :: rest =>
    match dictGet rest k with
    | some v' => some v'
    | none => if k' = k then some v else none

/-- The loop body for one segment: resolve the (possibly defaulted) style,
look up its reference audio and text, and run `infer` on the segment text
(`cross_fade_duration=0`, spectrogram discarded).  The `"Regular"` entry is
always present, so the `getD` default is never reached. -/
def segment_infer {Spect : Type} (deci word : Char → Bool) (intFn : List Char → Nat)
    (numToWords : Nat → String)
    (preprocessFn : Option String → String → String × String)
    (inferProcessFn : String → String → String → List Int × Nat × Spect)
    (removeSilenceFn : List Int → List Int) (remove_silence : Bool)
    (speech_types : List (String × SpeechEntry)) (seg : Segment) :
    Nat × List Int :=
  let current_style :=
    if (dictGet speech_types seg.style).isSome then seg.style else "Regular"
  let entry := (dictGet speech_types current_style).getD ⟨none, ""⟩
  (infer deci word intFn numToWords preprocessFn inferProcessFn removeSilenceFn
    entry.audio entry.ref_text seg.text remove_silence).1

/-- The `for segment in segments` loop: collect the generated waveforms in
order; `sr` holds the sample rate of the last `infer` call (`none` while no
call happened). -/
def gms_loop {Spect : Type} (deci word : Char → Bool) (intFn : List Char → Nat)
    (numToWords : Nat → String)
    (preprocessFn : Option String → String → String × String)
    (inferProcessFn : String → String → String → List Int × Nat × Spect)
    (removeSilenceFn : List Int → List Int) (remove_silence : Bool)
    (speech_types : List (String × SpeechEntry)) :
    List Segment → List (List Int) → Option Nat → List (List Int) × Option Nat
  | [], acc, sr => (acc, sr)
  | seg :: rest, acc, _ =>
    let r := segment_infer deci word intFn numToWords preprocessFn inferProcessFn
      removeSilenceFn remove_silence speech_types seg
    gms_loop deci word intFn numToWords preprocessFn inferProcessFn removeSilenceFn
      remove_silence speech_types rest (acc ++ [r.2]) (some r.1)

/-- `generate_multistyle_speech` (source lines 378–435): `none` models the
`gr.Warning` plus `return None` when no audio segment was generated. -/
def generate_multistyle_speech {Spect : Type} (deci word : Char → Bool) (intFn : List Char → Nat)
    (numToWords : Nat → String)
    (preprocessFn : Option String → String → String × String)
    (inferProcessFn : String → String → String → List Int × Nat × Spect)
    (removeSilenceFn : List Int → List Int)
    (regular_audio : Option String) (regular_ref_text : String)
    (gen_text : String) (names : List String) (audios : List (Option String))
    (ref_texts : List String) (remove_silence : Bool) : Option (Nat × List Int) :=
  let speech_types := build_speech_types regular_audio regular_ref_text
    (names.take (max_speech_types - 1)) (audios.take (max_speech_types - 1))
    (ref_texts.take (max_speech_types - 1))
  let segments := parse_speechtypes_text gen_text
  let r := gms_loop deci word intFn numToWords preprocessFn inferProcessFn removeSilenceFn
    remove_silence speech_types segments [] none
  match r.1, r.2 with
  | [], _ => none
  | _ :: _, none => none
  | _ :: _, some sr => some (sr, r.1.flatten)

theorem gms_loop_spec {Spect : Type} (deci word : Char → Bool) (intFn : List Char → Nat)
    (numToWords : Nat → String)
    (preprocessFn : Option String → String → String × String)
    (inferProcessFn : String → String → String → List Int × Nat × Spect)
    (removeSilenceFn : List Int → List Int) (remove_silence : Bool)
    (speech_types : List (String × SpeechEntry)) :
    ∀ (segs : List Segment) (acc : List (List Int)) (sr : Option Nat),
      gms_loop deci word intFn numToWords preprocessFn inferProcessFn removeSilenceFn
          remove_silence speech_types segs acc sr =
        (acc ++ segs.map (fun g => (segment_infer deci word intFn numToWords preprocessFn
            inferProcessFn removeSilenceFn remove_silence speech_types g).2),
         match segs.getLast? with
         | none => sr
         | some g => some (segment_infer deci word intFn numToWords preprocessFn
             inferProcessFn removeSilenceFn remove_silence speech_types g).1) := by
  intro segs
  induction segs with
  | nil => intro acc sr; simp [gms_loop]
  | cons seg rest ih =>
    intro acc sr
    rw [gms_loop, ih]
    match rest with
    | [] => simp
    | r1 :: r2 =>
      rw [List.getLast?_cons_cons]
      rw [List.getLast?_eq_getLast (r1 :: r2) (by simp)]
      simp [List.append_assoc]

/-- C4: `generate_multistyle_speech` synthesizes each parsed segment in order
with `infer`, using the reference audio and text its (possibly defaulted)
speech type resolves to, and returns the concatenation of the per-segment
waveforms together with the sample rate of the last call; with no parsed
segments it returns `none` (after the warning). -/
theorem generate_multistyle_speech_spec :
    ∀ {Spect : Type} (deci word : Char → Bool) (intFn : List Char → Nat)
    (numToWords : Nat → String)
      (preprocessFn : Option String → String → String × String)
      (inferProcessFn : String → String → String → List Int × Nat × Spect)
      (removeSilenceFn : List Int → List Int)
      (regular_audio : Option String) (regular_ref_text : String)
      (gen_text : String) (names : List String) (audios : List (Option String))
      (ref_texts : List String) (remove_silence : Bool),
      generate_multistyle_speech deci word intFn numToWords preprocessFn inferProcessFn
          removeSilenceFn regular_audio regular_ref_text gen_text names audios
          ref_texts remove_silence =
        (let speech_types := build_speech_types regular_audio regular_ref_text
          (names.take (max_speech_types - 1)) (audios.take (max_speech_types - 1))
          (ref_texts.take (max_speech_types - 1))
         let waves := (parse_speechtypes_text gen_text).map
          (segment_infer deci word intFn numToWords preprocessFn inferProcessFn removeSilenceFn
            remove_silence speech_types)
         match (parse_speechtypes_text gen_text).getLast? with
         | none => none
         | some glast => some ((segment_infer deci word intFn numToWords preprocessFn
             inferProcessFn removeSilenceFn remove_silence speech_types
             glast).1, (waves.map Prod.snd).flatten)) := by
  intro Spect deci word intFn numToWords preprocessFn inferProcessFn removeSilenceFn
    ra rrt gt ns aus rts rs
  simp only [generate_multistyle_speech, gms_loop_spec, List.nil_append]
  cases hsegs : parse_speechtypes_text gt with
  | nil => simp
  | cons s1 srest =>
    have hne : s1 :: srest ≠ [] := by simp
    have hlast : (s1 :: srest).getLast? = some ((s1 :: srest).getLast hne) :=
      List.getLast?_eq_getLast _ hne
    rw [hlast]
    simp only [List.map_cons]
    simp [List.map_map]
    rfl

theorem dictGet_cons_self (k : String) (v : SpeechEntry)
    (rest : List (String × SpeechEntry)) :
    ∃ e, dictGet ((k, v) :: rest) k = some e := by
  rw [dictGet]
  cases h : dictGet rest k with
  | some v' => exact ⟨v', rfl⟩
  | none => exact ⟨v, by simp⟩

theorem build_speech_types_regular (ra : Option String) (rrt : String)
    (ns : List String) (aus : List (Option String)) (rts : List String) :
    ∃ e, dictGet (build_speech_types ra rrt ns aus rts) "Regular" = some e := by
  unfold build_speech_types
  exact dictGet_cons_self "Regular" ⟨ra, rrt⟩ _

/-- C3: a parsed segment whose style is not a key of the `speech_types` dict
is not skipped and does not fail: it is synthesized with the reference audio
and reference text of the dict's `"Regular"` entry (which always exists),
and its waveform appears at the segment's position in the generated list. -/
theorem generate_multistyle_unknown_style_defaults_to_regular :
    ∀ {Spect : Type} (deci word : Char → Bool) (intFn : List Char → Nat)
    (numToWords : Nat → String)
      (preprocessFn : Option String → String → String × String)
      (inferProcessFn : String → String → String → List Int × Nat × Spect)
      (removeSilenceFn : List Int → List Int) (remove_silence : Bool)
      (regular_audio : Option String) (regular_ref_text : String)
      (gen_text : String) (names : List String) (audios : List (Option String))
      (ref_texts : List String) (seg : Segment),
      seg ∈ parse_speechtypes_text gen_text →
      dictGet (build_speech_types regular_audio regular_ref_text
          (names.take (max_speech_types - 1)) (audios.take (max_speech_types - 1))
          (ref_texts.take (max_speech_types - 1))) seg.style = none →
      ∃ e, dictGet (build_speech_types regular_audio regular_ref_text
            (names.take (max_speech_types - 1))
            (audios.take (max_speech_types - 1))
            (ref_texts.take (max_speech_types - 1))) "Regular" = some e
        ∧ segment_infer deci word intFn numToWords preprocessFn inferProcessFn removeSilenceFn
            remove_silence (build_speech_types regular_audio regular_ref_text
              (names.take (max_speech_types - 1))
              (audios.take (max_speech_types - 1))
              (ref_texts.take (max_speech_types - 1))) seg
          = (infer deci word intFn numToWords preprocessFn inferProcessFn removeSilenceFn
              e.audio e.ref_text seg.text remove_silence).1
        ∧ (segment_infer deci word intFn numToWords preprocessFn inferProcessFn removeSilenceFn
            remove_silence (build_speech_types regular_audio regular_ref_text
              (names.take (max_speech_types - 1))
              (audios.take (max_speech_types - 1))
              (ref_texts.take (max_speech_types - 1))) seg).2
          ∈ ((parse_speechtypes_text gen_text).map (segment_infer deci word intFn numToWords
              preprocessFn inferProcessFn removeSilenceFn remove_silence
              (build_speech_types regular_audio regular_ref_text
                (names.take (max_speech_types - 1))
                (audios.take (max_speech_types - 1))
                (ref_texts.take (max_speech_types - 1))))).map Prod.snd := by
  intro Spect deci word intFn numToWords preprocessFn inferProcessFn removeSilenceFn rs
    ra rrt gt ns aus rts seg hmem hnone
  obtain ⟨e, he⟩ := build_speech_types_regular ra rrt
    (ns.take (max_speech_types - 1)) (aus.take (max_speech_types - 1))
    (rts.take (max_speech_types - 1))
  refine ⟨e, he, ?_, ?_⟩
  · simp only [segment_infer, hnone, Option.isSome_none, Bool.false_eq_true,
      if_false, he, Option.getD_some]
  · exact List.mem_map_of_mem Prod.snd (List.mem_map_of_mem _ hmem)

/-- Witness for C3: a `{Unknown}` segment with only the Regular type
configured. -/
theorem generate_multistyle_unknown_style_witness :
    ∃ e, dictGet (build_speech_types (some "ref.wav") "mrhba"
          (List.take (max_speech_types - 1) [])
          (List.take (max_speech_types - 1) [])
          (List.take (max_speech_types - 1) [])) "Regular" = some e
      ∧ segment_infer isDeciUni isWordUni intUni (fun _ => "") (fun a r => ("p", r))
          (fun _ _ t => ([(t.length : Int)], 7, ())) (fun w => w) false
          (build_speech_types (some "ref.wav") "mrhba"
            (List.take (max_speech_types - 1) [])
            (List.take (max_speech_types - 1) [])
            (List.take (max_speech_types - 1) [])) ⟨"Unknown", "hi"⟩
        = (infer isDeciUni isWordUni intUni (fun _ => "") (fun a r => ("p", r))
            (fun _ _ t => ([(t.length : Int)], 7, ())) (fun w => w)
            e.audio e.ref_text "hi" false).1
      ∧ (segment_infer isDeciUni isWordUni intUni (fun _ => "") (fun a r => ("p", r))
          (fun _ _ t => ([(t.length : Int)], 7, ())) (fun w => w) false
          (build_speech_types (some "ref.wav") "mrhba"
            (List.take (max_speech_types - 1) [])
            (List.take (max_speech_types - 1) [])
            (List.take (max_speech_types - 1) [])) ⟨"Unknown", "hi"⟩).2
        ∈ ((parse_speechtypes_text "\x7bUnknown\x7d hi").map
            (segment_infer isDeciUni isWordUni intUni (fun _ => "") (fun a r => ("p", r))
              (fun _ _ t => ([(t.length : Int)], 7, ())) (fun w => w) false
              (build_speech_types (some "ref.wav") "mrhba"
                (List.take (max_speech_types - 1) [])
                (List.take (max_speech_types - 1) [])
                (List.take (max_speech_types - 1) [])))).map Prod.snd :=
  generate_multistyle_unknown_style_defaults_to_regular
    isDeciUni isWordUni intUni (fun _ => "") (fun a r => ("p", r)) (fun _ _ t => ([(t.length : Int)], 7, ()))
    (fun w => w) false (some "ref.wav") "mrhba" "\x7bUnknown\x7d hi" [] [] []
    ⟨"Unknown", "hi"⟩ (by decide) (by decide)

/-!
## `process_audio_input` (source lines 583–604)

`transcribeFn` models `preprocess_ref_audio_text(audio_path, text)[1]` (the
possibly Whisper-transcribed text); `genResponseFn` models
`generate_response(conv_state, chat_model_state, chat_tokenizer_state)`.
The chat history entries are `(user message, optional reply)` pairs; the
source first appends `(text, None)` and then overwrites the last entry with
`(text, response)`, which is modelled with `dropLast`.
-/

/-- One message of the conversation state. -/
structure ChatMsg where
  role : String
  content : String
  deriving DecidableEq, Repr

/-- `process_audio_input` (source lines 583–604). -/
def process_audio_input
    (transcribeFn : String → String → String)
    (genResponseFn : List ChatMsg → String)
    (audio_path : Option String) (text : String)
    (history : List (String × Option String)) (conv_state : List ChatMsg) :
    List (String × Option String) × List ChatMsg × String :=
  if audio_path = none ∧ pyStrip text = "" then (history, conv_state, "")
  else
    let text1 :=
      match audio_path with
      | some p => transcribeFn p text
      | none => text
    if pyStrip text1 = "" then (history, conv_state, "")
    else
      let conv1 := conv_state ++ [⟨"user", text1⟩]
      let history1 := history ++ [(text1, none)]
      let response := genResponseFn conv1
      let conv2 := conv1 ++ [⟨"assistant", response⟩]
      let history2 := history1.dropLast ++ [(text1, some response)]
      (history2, conv2, "")

/-- C6: when the user message (the text box content, or the transcription of
the recorded audio when an audio path is present) is non-blank,
`process_audio_input` appends exactly the user message and the generated
reply to the conversation state, appends the single (message, reply) pair to
the chat history, and returns them with an empty string; with no audio path
and a blank text it returns both unchanged. -/
theorem process_audio_input_spec :
    ∀ (transcribeFn : String → String → String)
      (genResponseFn : List ChatMsg → String)
      (audio_path : Option String) (text : String)
      (history : List (String × Option String)) (conv_state : List ChatMsg),
      ((pyStrip (match audio_path with
          | some p => transcribeFn p text
          | none => text) ≠ "") →
        process_audio_input transcribeFn genResponseFn audio_path text
            history conv_state =
          (history ++ [((match audio_path with
              | some p => transcribeFn p text
              | none => text),
            some (genResponseFn (conv_state ++ [⟨"user",
              (match audio_path with
               | some p => transcribeFn p text
               | none => text)⟩])))],
           conv_state ++ [⟨"user", (match audio_path with
              | some p => transcribeFn p text
              | none => text)⟩,
             ⟨"assistant", genResponseFn (conv_state ++ [⟨"user",
               (match audio_path with
                | some p => transcribeFn p text
                | none => text)⟩])⟩],
           ""))
      ∧ (audio_path = none → pyStrip text = "" →
          process_audio_input transcribeFn genResponseFn audio_path text
            history conv_state = (history, conv_state, "")) := by
  intro transcribeFn genResponseFn audio_path text history conv_state
  constructor
  · intro hne
    unfold process_audio_input
    match audio_path with
    | none =>
      simp only [] at hne ⊢
      rw [if_neg (by simp [hne])]
      rw [if_neg hne]
      simp only [List.dropLast_concat, List.append_assoc, List.cons_append,
        List.nil_append]
    | some p =>
      simp only [] at hne ⊢
      rw [if_neg (by simp)]
      rw [if_neg hne]
      simp only [List.dropLast_concat, List.append_assoc, List.cons_append,
        List.nil_append]
  · intro hnone hblank
    subst hnone
    unfold process_audio_input
    rw [if_pos ⟨rfl, hblank⟩]

/-- Witness for C6: a plain text message `"hi"` with empty history, and the
blank case. -/
theorem process_audio_input_spec_witness :
    process_audio_input (fun _ t => t) (fun _ => "ok") none "hi" [] []
        = ([("hi", some "ok")],
           [⟨"user", "hi"⟩, ⟨"assistant", "ok"⟩], "")
      ∧ process_audio_input (fun _ t => t) (fun _ => "ok") none "  " [] []
        = ([], [], "") :=
  ⟨by
    have h := (process_audio_input_spec (fun _ t => t) (fun _ => "ok")
      none "hi" [] []).1 (by decide)
    simpa using h,
   by
    have h := (process_audio_input_spec (fun _ t => t) (fun _ => "ok")
      none "  " [] []).2 rfl (by decide)
    simpa using h⟩

/-!
## `validate_speech_types` (source lines 454–485)

The handler body (lines 455–479) slices `args[:99]` and returns
`gr.update(interactive=...)`; the Bool result models the `interactive` flag
(`true` = generate button enabled).  `if regular_name:` and `if name_input:`
are Python string truthiness, i.e. non-emptiness.  The `.change` wiring
(lines 481–485) passes `[gen_text_input_multistyle, regular_name] +
speech_type_names`, and `speech_type_names` (lines 267, 283) is the
regular-name textbox followed by the 99 additional name textboxes — so the
handler's `args` begin with the regular name again, and its `args[:99]`
keeps only the first 98 additional name fields, dropping the 99th.
-/

/-- The handler `validate_speech_types` (source lines 455–479) as a function
of the text, the regular name and the `*args` name values: `true` iff every
style used in the text is among the regular name (when non-empty) and the
non-empty entries of `args[:99]`. -/
def validate_speech_types (gen_text regular_name : String)
    (name_args : List String) : Bool :=
  let names_list := name_args.take (max_speech_types - 1)
  let speech_types_available :=
    (if regular_name ≠ "" then [regular_name] else [])
      ++ names_list.filter (fun n => n ≠ "")
  let speech_types_in_text :=
    (parse_speechtypes_text gen_text).map Segment.style
  let missing :=
    speech_types_in_text.filter (fun s => decide (s ∉ speech_types_available))
  missing.isEmpty

/-- `validate_speech_types` as wired to the `.change` event of the
generation text (source lines 481–485): the name inputs passed in `*args`
are the regular-name textbox followed by the 99 additional name textboxes. -/
def validate_speech_types_wired (gen_text regular_name : String)
    (additional_names : List String) : Bool :=
  validate_speech_types gen_text regular_name (regular_name :: additional_names)

/-- Modelled from the claim's words: the configured set contains the regular
name (unconditionally) and every non-empty additional name field. -/
def claim_speech_types_available (regular_name : String)
    (additional_names : List String) : List String :=
  regular_name :: additional_names.filter (fun n => n ≠ "")

/-- The amended configured set: the regular name only when it is non-empty,
plus every non-empty name among the first 98 additional name fields — the
99th field never reaches the handler's `args[:99]` slice because the wiring
prepends the regular-name textbox. -/
def amended_speech_types_available (regular_name : String)
    (additional_names : List String) : List String :=
  (if regular_name ≠ "" then [regular_name] else [])
    ++ (additional_names.take 98).filter (fun n => n ≠ "")

/-- C8 counterexample — two independent failures of the claim as stated.
With an empty regular name and text `"{} x"` (only parsed style: the empty
string), the program disables the button although no parsed style is absent
from the claim's configured set, which always contains the regular name,
here `""`.  With the 99th additional name field `"X"` and text `"{X} hi"`,
the program also disables the button — the handler never sees that field —
although `"X"` is a non-empty additional name field and hence in the
claim's set. -/
theorem validate_speech_types_claim_counterexample :
    (validate_speech_types_wired "\x7b\x7d x" "" (List.replicate 99 "") = false
      ∧ ((parse_speechtypes_text "\x7b\x7d x").map Segment.style).all
          (fun s => decide
            (s ∈ claim_speech_types_available "" (List.replicate 99 "")))
        = true)
      ∧ (validate_speech_types_wired "\x7bX\x7d hi" "Regular"
            (List.replicate 98 "" ++ ["X"]) = false
        ∧ ((parse_speechtypes_text "\x7bX\x7d hi").map Segment.style).all
            (fun s => decide
              (s ∈ claim_speech_types_available "Regular"
                (List.replicate 98 "" ++ ["X"])))
          = true) := by
  exact ⟨⟨by decide, by decide⟩, ⟨by decide, by decide⟩⟩

theorem filter_not_empty_iff {α : Type} (p : α → Bool) (l : List α) :
    (l.filter p).isEmpty = false ↔ ∃ x ∈ l, p x = true := by
  induction l with
  | nil => simp
  | cons a t ih =>
    by_cases h : p a = true
    · simp [List.filter_cons, h]
    · rw [Bool.not_eq_true] at h
      simp [List.filter_cons, h, ih]

theorem mem_wired_available_iff (rn : String) (additional : List String)
    (s : String) :
    (s ∈ (if rn ≠ "" then [rn] else [])
        ++ ((rn :: additional).take (max_speech_types - 1)).filter
            (fun n => n ≠ ""))
      ↔ s ∈ amended_speech_types_available rn additional := by
  have htake : (rn :: additional).take (max_speech_types - 1)
      = rn :: additional.take 98 := rfl
  rw [htake]
  unfold amended_speech_types_available
  by_cases h : rn = ""
  · subst h
    simp [List.filter_cons]
  · simp [h, List.filter_cons, List.mem_filter]

/-- C8 (amended): as wired to the text-change event, the handler disables
the generate button exactly when some parsed segment's style is absent from
the available names — the regular name when it is non-empty plus every
non-empty name among the first 98 additional name fields (the 99th is
dropped by the `args[:99]` slice, since the wiring prepends the regular-name
textbox to the names). -/
theorem validate_speech_types_disables_iff_missing :
    ∀ (gen_text regular_name : String) (additional_names : List String),
      validate_speech_types_wired gen_text regular_name additional_names
          = false ↔
        ∃ seg ∈ parse_speechtypes_text gen_text,
          seg.style ∉ amended_speech_types_available regular_name
            additional_names := by
  intro gen rn additional
  simp only [validate_speech_types_wired, validate_speech_types]
  rw [filter_not_empty_iff]
  constructor
  · rintro ⟨s, hs, hdec⟩
    rw [List.mem_map] at hs
    obtain ⟨seg, hseg, rfl⟩ := hs
    refine ⟨seg, hseg, fun hmem => ?_⟩
    exact of_decide_eq_true hdec
      ((mem_wired_available_iff rn additional seg.style).mpr hmem)
  · rintro ⟨seg, hseg, hnot⟩
    refine ⟨seg.style, List.mem_map_of_mem _ hseg, decide_eq_true ?_⟩
    intro hmem
    exact hnot ((mem_wired_available_iff rn additional seg.style).mp hmem)

/-- Witness for C8 (amended): an unknown style `{A}` disables the button. -/
theorem validate_speech_types_disables_witness :
    validate_speech_types_wired "\x7bA\x7d x" "Regular"
        (List.replicate 99 "") = false :=
  (validate_speech_types_disables_iff_missing "\x7bA\x7d x" "Regular"
    (List.replicate 99 "")).mpr ⟨⟨"A", "x"⟩, by decide, by decide⟩

/-!
## `add_speech_type_fn` / `make_delete_speech_type_fn` (source lines 293–336)

The counter lives in a `gr.State` starting at 0 and is only changed by these
two handlers; it is a Python `int`, modelled as `Int`.  A row update is
`gr.update(visible=...)` (`some b`) or the no-op `gr.update()` (`none`);
applying an update list to the 99 rows' visibility keeps a row's visibility
where the update is a no-op.
-/

/-- One UI row update: `some b` sets `visible := b`, `none` is `gr.update()`. -/
def applyRowUpdates (vis : List Bool) (ups : List (Option Bool)) : List Bool :=
  List.zipWith (fun v u => u.getD v) vis ups

/-- `add_speech_type_fn` (source lines 296–309): below the cap, increment
the counter and set every row with index below the new counter visible;
at the cap, change nothing. -/
def add_speech_type_fn (speech_type_count : Int) : Int × List (Option Bool) :=
  if speech_type_count < (max_speech_types : Int) - 1 then
    (speech_type_count + 1,
     (List.range (max_speech_types - 1)).map (fun i =>
       if (i : Int) < speech_type_count + 1 then some true else none))
  else
    (speech_type_count,
     (List.range (max_speech_types - 1)).map (fun _ => none))

/-- `make_delete_speech_type_fn index` (source lines 316–331): hide row
`index`, decrement the counter clamped at 0. -/
def make_delete_speech_type_fn (index : Nat) (speech_type_count : Int) :
    Int × List (Option Bool) :=
  (max 0 (speech_type_count - 1),
   (List.range (max_speech_types - 1)).map (fun i =>
     if i = index then some false else none))

/-- A click on the add button or on the delete button of row `index`. -/
inductive SpeechTypeEvent where
  | addClick : SpeechTypeEvent
  | deleteClick : Nat → SpeechTypeEvent
  deriving DecidableEq, Repr

/-- One click: run the handler on the current counter and apply its row
updates to the row visibilities. -/
def speechTypeStep (s : Int × List Bool) (e : SpeechTypeEvent) :
    Int × List Bool :=
  match e with
  | .addClick =>
    ((add_speech_type_fn s.1).1, applyRowUpdates s.2 (add_speech_type_fn s.1).2)
  | .deleteClick i =>
    ((make_delete_speech_type_fn i s.1).1,
     applyRowUpdates s.2 (make_delete_speech_type_fn i s.1).2)

/-- The UI state after a sequence of clicks, starting from counter 0 with
all 99 additional rows hidden. -/
def speechTypeRun (es : List SpeechTypeEvent) : Int × List Bool :=
  es.foldl speechTypeStep (0, List.replicate (max_speech_types - 1) false)

/-- The number of visible additional rows. -/
def countVisible (vis : List Bool) : Nat :=
  (vis.filter (fun b => b)).length

/-- C9 counterexample: after the reachable click sequence add, add, add,
delete row 0, delete row 1, the counter is 1 (below the cap) and one row is
visible, yet the next add click makes three rows visible — two more, not
one more. -/
theorem add_speech_type_claim_counterexample :
    (speechTypeRun [SpeechTypeEvent.addClick, SpeechTypeEvent.addClick,
        SpeechTypeEvent.addClick, SpeechTypeEvent.deleteClick 0,
        SpeechTypeEvent.deleteClick 1]).1 = 1
      ∧ (speechTypeRun [SpeechTypeEvent.addClick, SpeechTypeEvent.addClick,
          SpeechTypeEvent.addClick, SpeechTypeEvent.deleteClick 0,
          SpeechTypeEvent.deleteClick 1]).1 < (max_speech_types : Int) - 1
      ∧ countVisible (speechTypeRun [SpeechTypeEvent.addClick,
          SpeechTypeEvent.addClick, SpeechTypeEvent.addClick,
          SpeechTypeEvent.deleteClick 0, SpeechTypeEvent.deleteClick 1]).2 = 1
      ∧ countVisible (speechTypeRun [SpeechTypeEvent.addClick,
          SpeechTypeEvent.addClick, SpeechTypeEvent.addClick,
          SpeechTypeEvent.deleteClick 0, SpeechTypeEvent.deleteClick 1,
          SpeechTypeEvent.addClick]).2 = 3 := by
  refine ⟨by decide, by decide, by decide, by decide⟩

theorem speechTypeStep_bounds (e : SpeechTypeEvent) (s : Int × List Bool)
    (h0 : 0 ≤ s.1) (h1 : s.1 ≤ (max_speech_types : Int) - 1) :
    0 ≤ (speechTypeStep s e).1
      ∧ (speechTypeStep s e).1 ≤ (max_speech_types : Int) - 1 := by
  match e with
  | .addClick =>
    simp only [speechTypeStep, add_speech_type_fn, max_speech_types,
      Nat.cast_ofNat] at h1 ⊢
    by_cases hc : s.1 < (100 : Int) - 1
    · rw [if_pos hc]
      show 0 ≤ s.1 + 1 ∧ s.1 + 1 ≤ (100 : Int) - 1
      omega
    · rw [if_neg hc]
      exact ⟨h0, h1⟩
  | .deleteClick i =>
    simp only [speechTypeStep, make_delete_speech_type_fn, max_speech_types,
      Nat.cast_ofNat] at h1 ⊢
    show 0 ≤ max 0 (s.1 - 1) ∧ max 0 (s.1 - 1) ≤ (100 : Int) - 1
    omega

theorem speechTypeRun_bounds_aux :
    ∀ (es : List SpeechTypeEvent) (s : Int × List Bool),
      0 ≤ s.1 → s.1 ≤ (max_speech_types : Int) - 1 →
      0 ≤ (es.foldl speechTypeStep s).1
        ∧ (es.foldl speechTypeStep s).1 ≤ (max_speech_types : Int) - 1 := by
  intro es
  induction es with
  | nil => intro s h0 h1; exact ⟨h0, h1⟩
  | cons e rest ih =>
    intro s h0 h1
    have hstep := speechTypeStep_bounds e s h0 h1
    exact ih (speechTypeStep s e) hstep.1 hstep.2

/-- C9 (amended): under every click sequence the counter stays between 0 and
`max_speech_types - 1` (= 99); an add click below the cap increments the
counter by exactly 1 and sets every row with index below the new counter
visible (leaving the other rows unchanged), at the cap it changes nothing;
a delete click hides its own row and decrements the counter by 1, clamped
at 0. -/
theorem speech_type_count_invariant :
    ∀ es : List SpeechTypeEvent,
      (0 ≤ (speechTypeRun es).1
        ∧ (speechTypeRun es).1 ≤ (max_speech_types : Int) - 1)
      ∧ (∀ c : Int, c < (max_speech_types : Int) - 1 →
          add_speech_type_fn c
            = (c + 1, (List.range (max_speech_types - 1)).map (fun i =>
                if (i : Int) < c + 1 then some true else none)))
      ∧ (∀ c : Int, ¬ c < (max_speech_types : Int) - 1 →
          add_speech_type_fn c
            = (c, (List.range (max_speech_types - 1)).map (fun _ => none)))
      ∧ (∀ (i : Nat) (c : Int),
          make_delete_speech_type_fn i c
            = (max 0 (c - 1), (List.range (max_speech_types - 1)).map (fun j =>
                if j = i then some false else none))
          ∧ 0 ≤ (make_delete_speech_type_fn i c).1) := by
  intro es
  refine ⟨?_, ?_, ?_, ?_⟩
  · exact speechTypeRun_bounds_aux es (0, List.replicate (max_speech_types - 1) false)
      (le_refl 0) (by simp [max_speech_types])
  · intro c hc
    simp [add_speech_type_fn, hc]
  · intro c hc
    simp [add_speech_type_fn, hc]
  · intro i c
    exact ⟨rfl, le_max_left 0 _⟩

/-- Witness for C9: the handler characterizations at concrete counters. -/
theorem speech_type_count_invariant_witness :
    (0 ≤ (speechTypeRun [SpeechTypeEvent.addClick]).1
      ∧ (speechTypeRun [SpeechTypeEvent.addClick]).1
          ≤ (max_speech_types : Int) - 1)
      ∧ (add_speech_type_fn 5).1 = 6
      ∧ (add_speech_type_fn 99).1 = 99
      ∧ (make_delete_speech_type_fn 0 0).1 = 0 := by
  refine ⟨(speech_type_count_invariant [SpeechTypeEvent.addClick]).1, ?_, ?_, ?_⟩
  · rw [(speech_type_count_invariant []).2.1 5 (by decide)]
    decide
  · rw [(speech_type_count_invariant []).2.2.1 99 (by decide)]
  · rw [((speech_type_count_invariant []).2.2.2 0 0).1]
    decide

/-!
## The top-level app (source lines 702–725)

`gr.TabbedInterface([app_tts, app_multistyle, app_chat, app_credits], [...])`
declares the tab pages and their titles.
-/

/-- The four tab pages of the application. -/
inductive AppTab where
  | tts : AppTab
  | multistyle : AppTab
  | chat : AppTab
  | credits : AppTab
  deriving DecidableEq, Repr

/-- The first argument of `gr.TabbedInterface` (source lines 722–725):
the tab pages in order. -/
def app_tabs : List AppTab :=
  [AppTab.tts, AppTab.multistyle, AppTab.chat, AppTab.credits]

/-- The second argument of `gr.TabbedInterface`: the tab titles in order. -/
def app_tab_titles : List String :=
  ["🗣️ تحويل النص إلى كلام", "🎭 أنماط صوتية متعددة", "💬 دردشة صوتية",
   "📜 الاعتمادات"]

/-- C10: the application exposes exactly four tabs, in the order single-style
synthesis, multi-style synthesis, voice chat, credits. -/
theorem app_has_four_tabs_in_order :
    app_tabs = [AppTab.tts, AppTab.multistyle, AppTab.chat, AppTab.credits]
      ∧ app_tabs.length = 4 ∧ app_tab_titles.length = 4 :=
  ⟨rfl, rfl, rfl⟩

end F5TTS
